import Mathlib

/-!
Verification development for the legal-document analysis pipeline in `api.py`
(class `AnalisadorJuridico`). The Python source is shallowly embedded:

* text is `List Char` (Python `str` as a sequence of code points);
* the regular-expression patterns of `extrair_citacoes_legais` are embedded by
  a small prioritized-backtracking matcher (`RE`, `matchLens`) that mirrors
  Python `re` semantics for the constructs actually used (literals under
  `re.IGNORECASE`, the classes `\d`, `\s`, `[ºª]`, greedy `+`/`*`/`?`,
  alternation), and `re.finditer`'s non-overlapping left-to-right scan
  (`scanSkip`);
* external collaborators (the `requests`/`BeautifulSoup` portal access, the
  language-model client, and `json.loads`) are modelled as oracle fields of an
  environment record, so every theorem quantifies over their behaviour;
* Python exceptions are modelled with `Except`/`Option`: a function that
  catches all exceptions and returns a default is embedded as a total function.
-/

/-! ## Characters and case folding

Python `re.IGNORECASE` compares the lower-cased pattern character with the
lower-cased text character.  We work on code points (`Nat`).  `lowerN` is the
`str.lower` mapping restricted to the ranges occurring in the patterns and in
legal prose: ASCII `A`–`Z` and Latin-1 `À`–`Þ` (except `×`) map to the
corresponding lowercase letter; everything else is fixed. -/

def lowerN (n : Nat) : Nat :=
  if (65 ≤ n ∧ n ≤ 90) ∨ (192 ≤ n ∧ n ≤ 222 ∧ n ≠ 215) then n + 32 else n

/-- Python `\d` (ASCII digits; the embedding restricts to ASCII). -/
def isDigitN (n : Nat) : Bool := decide (48 ≤ n ∧ n ≤ 57)

/-- Python `\s` (ASCII whitespace: space, tab, newline, carriage return,
vertical tab, form feed). -/
def isSpaceN (n : Nat) : Bool :=
  decide (n = 32 ∨ n = 9 ∨ n = 10 ∨ n = 13 ∨ n = 11 ∨ n = 12)

/-- The character class `[ºª]` of the article patterns
(`º` is U+00BA = 186, `ª` is U+00AA = 170). -/
def isOrdN (n : Nat) : Bool := decide (n = 186 ∨ n = 170)

/-- The code points of a pattern literal, pre-lowered for `IGNORECASE`
comparison. -/
def strN (s : String) : List Nat := s.toList.map (fun c => lowerN c.toNat)

/-- Does the (pre-lowered) literal `cs` match a prefix of the text `l`
case-insensitively? -/
def litMatch : List Nat → List Nat → Bool
  | [], _ => true
  | _ :: _, [] => false
  | a :: as, b :: bs => (lowerN b == a) && litMatch as bs

/-- Length of the maximal run of characters satisfying `p` at the head of
the text; used for the greedy quantifiers over a character class. -/
def countLead (p : Nat → Bool) : List Nat → Nat
  | [] => 0
  | n :: rest => if p n then countLead p rest + 1 else 0

/-- Candidate consumption lengths of a greedy `*` over a class, in Python
backtracking priority order: the maximal run first, down to zero. -/
def descRange (k : Nat) : List Nat := (List.range (k + 1)).reverse

/-- Candidate consumption lengths of a greedy `+` over a class: the maximal
run first, down to one (empty when there is no run). -/
def descRangeOne (k : Nat) : List Nat := ((List.range k).map (· + 1)).reverse

/-! ## A tiny regular-expression engine

`RE` covers exactly the constructs of the six patterns in
`extrair_citacoes_legais`.  `matchLens re l` is the list of lengths of text
that `re` can consume at the head of `l`, in Python backtracking priority
order, so `(matchLens re l).head?` is the match Python's engine selects at
this position. -/

/-- The three character classes occurring in the patterns: `\d`, `\s`, `[ºª]`. -/
inductive CharCls where
  | digit
  | space
  | ord
  deriving DecidableEq

def clsFun : CharCls → Nat → Bool
  | .digit => isDigitN
  | .space => isSpaceN
  | .ord => isOrdN

inductive RE where
  | lit (cs : List Nat)
  | cls (t : CharCls)
  | seq (a b : RE)
  | alt (a b : RE)
  | opt (a : RE)
  | starCls (t : CharCls)
  | plusCls (t : CharCls)

def matchLens : RE → List Nat → List Nat
  | .lit cs, l => if litMatch cs l then [cs.length] else []
  | .cls t, l =>
    match l with
    | [] => []
    | n :: _ => if clsFun t n then [1] else []
  | .seq a b, l =>
    (matchLens a l).flatMap (fun ka => (matchLens b (l.drop ka)).map (ka + ·))
  | .alt a b, l => matchLens a l ++ matchLens b l
  | .opt a, l => matchLens a l ++ [0]
  | .starCls t, l => descRange (countLead (clsFun t) l)
  | .plusCls t, l => descRangeOne (countLead (clsFun t) l)

/-- The match Python's engine produces at the current position, if any. -/
def firstLen (re : RE) (l : List Nat) : Option Nat := (matchLens re l).head?

/-- One pass of `re.finditer`: scan the text left to right; at each position
not covered by a previous match try the pattern; on a match of length `k`
emit `(position, matched text)` and resume after the match (for an empty
match, resume at the next position).  `sk` counts positions still covered by
the previous match. -/
def scanSkip (re : RE) : List Char → Nat → Nat → List (Nat × List Char)
  | [], _, _ => []
  | c :: rest, pos, sk =>
    match sk with
    | skn + 1 => scanSkip re rest (pos + 1) skn
    | 0 =>
      match firstLen re ((c :: rest).map Char.toNat) with
      | none => scanSkip re rest (pos + 1) 0
      | some 0 => (pos, []) :: scanSkip re rest (pos + 1) 0
      | some (kk + 1) =>
        (pos, (c :: rest).take (kk + 1)) :: scanSkip re rest (pos + 1) kk

/-! ## Citation extraction (`extrair_citacoes_legais`, api.py lines 74–96) -/

/-- A citation dictionary: `{'texto': ..., 'posicao': match.span(),
'tipo': 'lei' | 'artigo'}`. -/
structure Citacao where
  texto : List Char
  posicao : Nat × Nat
  tipo : String
  deriving DecidableEq, Repr

/-- Pattern `Lei\s+n?º?\s*(\d+\.?\d*/?-?\d*)`. -/
def padraoLei : RE :=
  .seq (.lit (strN "Lei"))
    (.seq (.plusCls .space)
      (.seq (.opt (.lit (strN "n")))
        (.seq (.opt (.lit (strN "º")))
          (.seq (.starCls .space)
            (.seq (.plusCls .digit)
              (.seq (.opt (.lit (strN ".")))
                (.seq (.starCls .digit)
                  (.seq (.opt (.lit (strN "/")))
                    (.seq (.opt (.lit (strN "-")))
                      (.starCls .digit))))))))))

/-- Pattern `artigo\s+(\d+[ºª]?)`. -/
def padraoArtigo : RE :=
  .seq (.lit (strN "artigo"))
    (.seq (.plusCls .space) (.seq (.plusCls .digit) (.opt (.cls .ord))))

/-- Pattern `art\.\s*(\d+[ºª]?)`. -/
def padraoArt : RE :=
  .seq (.lit (strN "art."))
    (.seq (.starCls .space) (.seq (.plusCls .digit) (.opt (.cls .ord))))

/-- Pattern `Código\s+(Civil|Penal|de\s+Defesa\s+do\s+Consumidor)`. -/
def padraoCodigo : RE :=
  .seq (.lit (strN "Código"))
    (.seq (.plusCls .space)
      (.alt (.lit (strN "Civil"))
        (.alt (.lit (strN "Penal"))
          (.seq (.lit (strN "de"))
            (.seq (.plusCls .space)
              (.seq (.lit (strN "Defesa"))
                (.seq (.plusCls .space)
                  (.seq (.lit (strN "do"))
                    (.seq (.plusCls .space)
                      (.lit (strN "Consumidor")))))))))))

/-- Pattern `CDC`. -/
def padraoCDC : RE := .lit (strN "CDC")

/-- Pattern `CC`. -/
def padraoCC : RE := .lit (strN "CC")

/-- The ordered pattern list `padroes` of `extrair_citacoes_legais`. -/
def padroes : List RE :=
  [padraoLei, padraoArtigo, padraoArt, padraoCodigo, padraoCDC, padraoCC]

/-- Case-sensitive prefix test on character lists. -/
def hasPre : List Char → List Char → Bool
  | [], _ => true
  | _ :: _, [] => false
  | a :: as, b :: bs => (a == b) && hasPre as bs

/-- Python's case-sensitive substring containment `needle in hay`. -/
def containsSeq (needle : List Char) : List Char → Bool
  | [] => needle.isEmpty
  | c :: rest => hasPre needle (c :: rest) || containsSeq needle rest

def leiTok : List Char := "Lei".toList

/-- All matches of one pattern over the text, as `finditer` yields them. -/
def matchesDe (re : RE) (texto : List Char) : List (Nat × List Char) :=
  scanSkip re texto 0 0

/-- Build one citation dictionary from one match (`match.group(0)`,
`match.span()`, and the kind test `'lei' if 'Lei' in match.group(0) else
'artigo'`). -/
def mkCitacao (r : Nat × List Char) : Citacao :=
  { texto := r.2
    posicao := (r.1, r.1 + r.2.length)
    tipo := if containsSeq leiTok r.2 then "lei" else "artigo" }

/-- The pattern loop of `extrair_citacoes_legais`: citations of each pattern
in pattern order, appended in order. -/
def citacoesDos : List RE → List Char → List Citacao
  | [], _ => []
  | p :: ps, texto => (matchesDe p texto).map mkCitacao ++ citacoesDos ps texto

/-- Function `extrair_citacoes_legais` (api.py lines 74–96): apply each pattern of
`padroes` to the whole text with `re.finditer(..., re.IGNORECASE)` and
collect one citation per match, in pattern order. -/
def extrair_citacoes_legais (texto : List Char) : List Citacao :=
  citacoesDos padroes texto

/-! ## Canonicalization of cited laws

Two inline canonicalizations occur in the source: one in
`analisar_discrepancias` (api.py lines 182–189) and one in
`processar_documento_completo` (api.py lines 254–263).  Both are embedded
as per-citation-text functions returning `none` when the text is excluded. -/

def cdcTok : List Char := "CDC".toList
def codTok : List Char := "Código".toList
def codCivTok : List Char := "Código Civil".toList
def ccTok : List Char := "CC".toList
def cddcTok : List Char := "Código de Defesa do Consumidor".toList

/-- The fixed id `'Lei 8.078/90'` used for CDC citations. -/
def leiCDCid : List Char := "Lei 8.078/90".toList

/-- The fixed id `'Lei 10.406/2002'` used for Civil Code citations. -/
def leiCCid : List Char := "Lei 10.406/2002".toList

/-- The branch of api.py lines 183–189: `if 'Lei' in t: t; elif 'CDC' in t:
'Lei 8.078/90'; elif any(x in t for x in ['Código Civil', 'CC']):
'Lei 10.406/2002'`; otherwise the citation contributes nothing to the set. -/
def canonAnalisar (t : List Char) : Option (List Char) :=
  if containsSeq leiTok t then some t
  else if containsSeq cdcTok t then some leiCDCid
  else if containsSeq codCivTok t || containsSeq ccTok t then some leiCCid
  else none

/-- The guard of api.py line 255: `'Lei' in t or 'CDC' in t or 'Código' in t`. -/
def lawLikeB (t : List Char) : Bool :=
  containsSeq leiTok t || containsSeq cdcTok t || containsSeq codTok t

/-- The rewrite of api.py lines 256–260: `lei_busca = t; if 'CDC' in
lei_busca: 'Lei 8.078/90'; elif 'Código Civil' in lei_busca:
'Lei 10.406/2002'`. -/
def orchId (t : List Char) : List Char :=
  if containsSeq cdcTok t then leiCDCid
  else if containsSeq codCivTok t then leiCCid
  else t

/-- The orchestrator's citation-to-id mapping as a partial function:
the guard of line 255 composed with the rewrite of lines 256–260. -/
def canonOrch (t : List Char) : Option (List Char) :=
  if lawLikeB t then some (orchId t) else none

/-! ## JSON values and the model-response handling of `analisar_discrepancias`

`json.loads` is an external collaborator (the Python standard library); it is
modelled as an oracle `loads : List Char → Option Json` in the environment,
`none` standing for a raised `JSONDecodeError`. -/

inductive Json where
  | null
  | bool (b : Bool)
  | num (n : Int)
  | str (s : List Char)
  | arr (xs : List Json)
  | obj (kvs : List (String × Json))

/-- Is the value a JSON array? -/
def Json.isArr : Json → Bool
  | .arr _ => true
  | _ => false

/-- Python `d['discrepancias']` under the surrounding `except`: a present
key of a dict yields its value; a missing key (`KeyError`) or a non-dict
(`TypeError`) raises, which the caller's handler turns into `none` here. -/
def jsonGet (j : Json) (k : String) : Option Json :=
  match j with
  | .obj kvs => (kvs.find? (fun kv => kv.1 == k)).map (·.2)
  | _ => none

def isSpaceC (c : Char) : Bool := isSpaceN c.toNat

/-- Python `str.strip()` (whitespace restricted to ASCII in the embedding). -/
def pyStripL (l : List Char) : List Char :=
  ((l.dropWhile isSpaceC).reverse.dropWhile isSpaceC).reverse

/-- Python `s.split('\n')`: always a non-empty list of lines. -/
def splitNL : List Char → List (List Char)
  | [] => [[]]
  | c :: rest =>
    let r := splitNL rest
    if c = '\n' then [] :: r
    else
      match r with
      | [] => [[c]]
      | h :: t => (c :: h) :: t

/-- Python `'\n'.join(ls)`. -/
def joinNL : List (List Char) → List Char
  | [] => []
  | [x] => x
  | x :: y :: t => x ++ '\n' :: joinNL (y :: t)

def fenceTok : List Char := "```".toList

/-- The response clean-up of api.py lines 210–212: strip whitespace and, when
the response starts with a fenced code block marker, drop the first and last
lines (`resultado.split('\n')[1:-1]` rejoined). -/
def cleanResp (s : List Char) : List Char :=
  let r := pyStripL s
  if hasPre fenceTok r then joinNL (((splitNL r).drop 1).dropLast) else r

/-! ## The statute portal client (`buscar_conteudo_lei`, api.py lines 98–134)

`requests` and `BeautifulSoup` are external collaborators, modelled as
oracles: `search` covers the first GET including `raise_for_status` and the
parse for the first `div.item` (`Except.error` = any raised exception,
`.ok none` = no result container); `fetchPage` covers the second GET, which
has **no** `raise_for_status`, so it yields a status code and a body even for
HTTP error statuses; `getText` covers `BeautifulSoup(...).get_text()`. -/

/-- The first result's `<a>` tag; `href` is `link.get('href', '')`, the empty
list when the attribute is missing. -/
structure LinkT where
  href : List Char
  deriving DecidableEq

/-- The first `div.item` of the search page: its optional `<a>` and the
optional text of its `<h3>`. -/
structure ItemDiv where
  link : Option LinkT
  h3 : Option (List Char)
  deriving DecidableEq

structure PortalEnv where
  search : List Char → Except Unit (Option ItemDiv)
  fetchPage : List Char → Except Unit (Nat × List Char)
  getText : List Char → List Char

/-- The dictionary returned on success (api.py lines 123–128). -/
structure ConteudoLei where
  lei : List Char
  titulo : List Char
  link : List Char
  conteudo : List Char
  deriving DecidableEq

/-- Function `buscar_conteudo_lei`: every failure (network error, HTTP error status on
the search request, missing result container, missing link, empty href,
failure of the follow-up request, missing `<h3>`) yields `none`; on success
the content is truncated to 5000 characters.  The status of the follow-up
request is never inspected. -/
def buscar_conteudo_lei (p : PortalEnv) (lei_id : List Char) : Option ConteudoLei :=
  match p.search lei_id with
  | .error _ => none
  | .ok none => none
  | .ok (some item) =>
    match item.link with
    | none => none
    | some lk =>
      if lk.href = [] then none
      else
        match p.fetchPage lk.href with
        | .error _ => none
        | .ok (_st, body) =>
          match item.h3 with
          | none => none
          | some ttl =>
            some { lei := lei_id, titulo := ttl, link := lk.href
                   conteudo := (p.getText body).take 5000 }

/-! ## The discrepancy analyzer (`analisar_discrepancias`, api.py lines 136–218)

The language-model client is an external collaborator.  `invokeA` abstracts
`(prompt | self.llm).invoke({...}).content` for the verification prompt: it
receives the data interpolated into the prompt (the raw text, the citation
list that `json.dumps` serializes, and the fetched law content) and either
raises (`Except.error`) or returns the response text.  `loads` abstracts
`json.loads`.  `invokeS` is the same client under the simplification prompt
of `simplificar_texto`. -/

structure ModeloEnv where
  portal : PortalEnv
  invokeA : List Char → List Citacao → List Char → Except Unit (List Char)
  loads : List Char → Option Json
  invokeS : List Char → Except Unit (List Char)

/-- Python `set.add` modelled on an insertion-ordered duplicate-free list
(the set's iteration order is unspecified in Python; no claim depends on the
order, only on membership). -/
def dedupAdd (acc : List (List Char)) (x : List Char) : List (List Char) :=
  if x ∈ acc then acc else acc ++ [x]

/-- The loop of api.py lines 182–189 building the set `leis_identificadas`. -/
def leisIdentificadas (citacoes : List Citacao) : List (List Char) :=
  citacoes.foldl
    (fun acc cit =>
      match canonAnalisar cit.texto with
      | some id => dedupAdd acc id
      | none => acc)
    []

def sepLine : List Char := List.replicate 60 '='

/-- The fallback text `"Não foi possível buscar o conteúdo das leis."`. -/
def placeholderTok : List Char := "Não foi possível buscar o conteúdo das leis.".toList

/-- The loop of api.py lines 191–199 building the `conteudo_leis` context
blob: for each identified law, on a successful fetch append a delimiter block
plus the first 2000 characters of its content; if nothing was retrieved,
substitute the placeholder. -/
def conteudoLeis (p : PortalEnv) (citacoes : List Citacao) : List Char :=
  let corpo :=
    (leisIdentificadas citacoes).foldl
      (fun s lei =>
        match buscar_conteudo_lei p lei with
        | some c =>
          s ++ ('\n' :: sepLine) ++ ('\n' :: lei) ++ ('\n' :: sepLine) ++ ['\n']
            ++ c.conteudo.take 2000
        | none => s)
      []
  if corpo = [] then placeholderTok else corpo

def discKey : String := "discrepancias"

/-- Function `analisar_discrepancias`: fetch law content, invoke the model, clean the
response, `json.loads` it, and take its `'discrepancias'` entry; **any**
exception in the `try` block (model error, JSON decode error, missing key,
non-dict value) is caught and replaced by the empty list.  The embedded
function is total: the Python function never propagates an exception. -/
def analisar_discrepancias (env : ModeloEnv) (texto : List Char)
    (citacoes : List Citacao) : Json :=
  let cl := conteudoLeis env.portal citacoes
  match env.invokeA texto citacoes cl with
  | .error _ => Json.arr []
  | .ok content =>
    match env.loads (cleanResp content) with
    | none => Json.arr []
    | some j =>
      match jsonGet j discKey with
      | none => Json.arr []
      | some v => v

/-! ## The simplifier (`simplificar_texto`, api.py lines 220–243)

No exception handling here: a model failure propagates to the caller. -/

def simplificar_texto (env : ModeloEnv) (texto : List Char) :
    Except Unit (List Char) :=
  match env.invokeS texto with
  | .error e => .error e
  | .ok content => .ok (pyStripL content)

/-! ## The orchestrator (`processar_documento_completo`, api.py lines 245–277)

The found-laws loop carries two accumulators exactly as the source does
(`leis_encontradas`, `leis_unicas`); in the embedding each appended entry is
paired with the canonical id (`lei_busca`) that produced it, so that the
deduplication invariant is expressible; the source stores only the entry, and
`processar_documento_completo` projects the id away. -/

structure LeiEncontrada where
  nome : List Char
  link : List Char
  status : String
  deriving DecidableEq

/-- One iteration of the loop of api.py lines 254–270. -/
def leisStep (p : PortalEnv)
    (acc : List (List Char × LeiEncontrada) × List (List Char))
    (cit : Citacao) : List (List Char × LeiEncontrada) × List (List Char) :=
  if lawLikeB cit.texto then
    let lb := orchId cit.texto
    if lb ∈ acc.2 then acc
    else
      match buscar_conteudo_lei p lb with
      | some c =>
        (acc.1 ++ [(lb, { nome := c.titulo, link := c.link, status := "Vigente" })],
         acc.2 ++ [lb])
      | none => (acc.1, acc.2 ++ [lb])
  else acc

def leisLoop (p : PortalEnv) :
    List Citacao → List (List Char × LeiEncontrada) × List (List Char) →
    List (List Char × LeiEncontrada) × List (List Char)
  | [], acc => acc
  | cit :: rest, acc => leisLoop p rest (leisStep p acc cit)

/-- The final response dictionary (api.py lines 272–277). -/
structure Resultado where
  textoSimplificado : List Char
  discrepancias : Json
  leisEncontradas : List LeiEncontrada
  citacoesEncontradas : Nat

/-- Function `processar_documento_completo`: extraction, discrepancy analysis,
simplification (whose failure propagates), then the deduplicated found-laws
loop.  `citacoesEncontradas` is `len(citacoes)` before any deduplication. -/
def processar_documento_completo (env : ModeloEnv) (texto : List Char) :
    Except Unit Resultado :=
  let citacoes := extrair_citacoes_legais texto
  let discrepancias := analisar_discrepancias env texto citacoes
  match simplificar_texto env texto with
  | .error e => .error e
  | .ok ts =>
    let pares := (leisLoop env.portal citacoes ([], [])).1
    .ok { textoSimplificado := ts
          discrepancias := discrepancias
          leisEncontradas := pares.map (·.2)
          citacoesEncontradas := citacoes.length }

/-! ## Supporting lemmas -/

theorem hasPre_append (x y t : List Char) (h : hasPre (x ++ y) t = true) :
    hasPre x t = true := by
  induction x generalizing t with
  | nil => simp [hasPre]
  | cons a as ih =>
    cases t with
    | nil => simp [hasPre] at h
    | cons b bs =>
      simp only [List.cons_append, hasPre, Bool.and_eq_true] at h ⊢
      exact ⟨h.1, ih bs h.2⟩

theorem containsSeq_append_left (x y t : List Char)
    (h : containsSeq (x ++ y) t = true) : containsSeq x t = true := by
  induction t with
  | nil =>
    simp only [containsSeq, List.isEmpty_eq_true, List.append_eq_nil] at h ⊢
    exact h.1
  | cons c rest ih =>
    simp only [containsSeq, Bool.or_eq_true] at h ⊢
    rcases h with h | h
    · exact Or.inl (hasPre_append x y _ h)
    · exact Or.inr (ih h)

theorem contains_codCiv_cod (t : List Char) (h : containsSeq codCivTok t = true) :
    containsSeq codTok t = true := by
  have hx : codCivTok = codTok ++ (" Civil".toList) := by decide
  exact containsSeq_append_left _ _ _ (hx ▸ h)

/-! ## Claim C1 -/

/-- Claim C1 (amended): canonicalization in `analisar_discrepancias` is a
fixed per-citation mapping: a text containing `'Lei'` keeps its own literal
text as its id; a text containing `'CDC'` (and not `'Lei'`) maps to the fixed
id `'Lei 8.078/90'`; a text containing `'Código Civil'` or the bare token
`'CC'` (and neither `'Lei'` nor `'CDC'`) maps to the fixed id
`'Lei 10.406/2002'`, which differs from the CDC id; but — contrary to the
claim as stated — the spelled-out text `'Código de Defesa do Consumidor'`
matches no rule and is dropped rather than mapped to the CDC id. -/
theorem claim_C1_canon :
    (∀ t, containsSeq leiTok t = true → canonAnalisar t = some t)
    ∧ (∀ t, containsSeq leiTok t = false → containsSeq cdcTok t = true →
        canonAnalisar t = some leiCDCid)
    ∧ canonAnalisar cddcTok = none
    ∧ (∀ t, containsSeq leiTok t = false → containsSeq cdcTok t = false →
        (containsSeq codCivTok t = true ∨ containsSeq ccTok t = true) →
        canonAnalisar t = some leiCCid)
    ∧ leiCDCid ≠ leiCCid := by
  refine ⟨?_, ?_, by decide, ?_, by decide⟩
  · intro t h; simp [canonAnalisar, h]
  · intro t h1 h2; simp [canonAnalisar, h1, h2]
  · intro t h1 h2 h3
    rcases h3 with h3 | h3 <;> simp [canonAnalisar, h1, h2, h3]

/-- Witness for C1: the three mapping rules evaluated at concrete citation
texts, via `claim_C1_canon`. -/
theorem claim_C1_canon_witness :
    canonAnalisar leiCDCid = some leiCDCid
    ∧ canonAnalisar cdcTok = some leiCDCid
    ∧ canonAnalisar ccTok = some leiCCid
    ∧ leiCDCid ≠ leiCCid := by
  obtain ⟨h1, h2, _, h4, h5⟩ := claim_C1_canon
  exact ⟨h1 _ (by decide), h2 _ (by decide) (by decide),
    h4 _ (by decide) (by decide) (Or.inr (by decide)), h5⟩

/-- Counterexample for C1 as stated: `'CDC'` maps to the fixed CDC id, but
`'Código de Defesa do Consumidor'` maps to nothing — the two do **not** map
to the same canonical law id. -/
theorem claim_C1_cex :
    canonAnalisar cddcTok = none ∧ canonAnalisar cdcTok = some leiCDCid := by
  decide

/-! ## Claim C5 -/

/-- Claim C5 (amended): the analyzer's canonicalization (`canonAnalisar`,
api.py lines 182–189) and the orchestrator's (`canonOrch`, api.py lines
254–263) agree on texts containing `'Lei'` but neither `'CDC'` nor
`'Código Civil'` (kept literally), on texts containing `'CDC'` but not
`'Lei'` (the CDC id), on texts containing `'Código Civil'` but neither
`'Lei'` nor `'CDC'` (the Civil Code id), and on texts containing none of
`'Lei'`, `'CDC'`, `'Código'`, `'CC'` (both exclude); they are **not** the
same function: a bare `'CC'` citation is canonicalized only by the analyzer,
and a `'Código Penal'` citation only by the orchestrator (kept literally). -/
theorem claim_C5_mappings :
    (∀ t, containsSeq leiTok t = true → containsSeq cdcTok t = false →
      containsSeq codCivTok t = false →
      canonAnalisar t = some t ∧ canonOrch t = some t)
    ∧ (∀ t, containsSeq cdcTok t = true → containsSeq leiTok t = false →
      canonAnalisar t = some leiCDCid ∧ canonOrch t = some leiCDCid)
    ∧ (∀ t, containsSeq codCivTok t = true → containsSeq leiTok t = false →
      containsSeq cdcTok t = false →
      canonAnalisar t = some leiCCid ∧ canonOrch t = some leiCCid)
    ∧ (∀ t, containsSeq leiTok t = false → containsSeq cdcTok t = false →
      containsSeq codTok t = false → containsSeq ccTok t = false →
      canonAnalisar t = none ∧ canonOrch t = none)
    ∧ (canonAnalisar ccTok = some leiCCid ∧ canonOrch ccTok = none)
    ∧ (canonAnalisar ("Código Penal".toList) = none
       ∧ canonOrch ("Código Penal".toList) = some ("Código Penal".toList)) := by
  refine ⟨?_, ?_, ?_, ?_, by decide, by decide⟩
  · intro t h1 h2 h3
    constructor
    · simp [canonAnalisar, h1]
    · simp [canonOrch, lawLikeB, orchId, h1, h2, h3]
  · intro t h1 h2
    constructor
    · simp [canonAnalisar, h1, h2]
    · simp [canonOrch, lawLikeB, orchId, h1]
  · intro t h1 h2 h3
    constructor
    · simp [canonAnalisar, h1, h2, h3]
    · simp [canonOrch, lawLikeB, orchId, h1, h3, contains_codCiv_cod t h1]
  · intro t h1 h2 h3 h4
    have h5 : containsSeq codCivTok t = false := by
      cases h : containsSeq codCivTok t
      · rfl
      · exact absurd (contains_codCiv_cod t h) (by simp [h3])
    constructor
    · simp [canonAnalisar, h1, h2, h4, h5]
    · simp [canonOrch, lawLikeB, h1, h2, h3]

/-- Witness for C5: the agreement cases of `claim_C5_mappings` evaluated at
concrete citation texts of each shape. -/
theorem claim_C5_mappings_witness :
    (canonAnalisar ("Lei 1.234/56".toList) = some ("Lei 1.234/56".toList)
      ∧ canonOrch ("Lei 1.234/56".toList) = some ("Lei 1.234/56".toList))
    ∧ (canonAnalisar cdcTok = some leiCDCid ∧ canonOrch cdcTok = some leiCDCid)
    ∧ (canonAnalisar codCivTok = some leiCCid ∧ canonOrch codCivTok = some leiCCid)
    ∧ (canonAnalisar ("artigo 5º".toList) = none
       ∧ canonOrch ("artigo 5º".toList) = none) := by
  obtain ⟨h1, h2, h3, h4, _, _⟩ := claim_C5_mappings
  exact ⟨h1 _ (by decide) (by decide) (by decide),
    h2 _ (by decide) (by decide),
    h3 _ (by decide) (by decide) (by decide),
    h4 _ (by decide) (by decide) (by decide) (by decide)⟩

/-- Counterexample for C5 as stated: the bare token `'CC'` is canonicalized
by the analyzer's mapping but excluded by the orchestrator's, so a citation
is **not** included by one exactly when it is included by the other. -/
theorem claim_C5_cex :
    canonAnalisar ccTok = some leiCCid ∧ canonOrch ccTok = none := by
  decide

/-! ## Claim C4 -/

/-- Claim C4: `buscar_conteudo_lei` returns `none` — and, being total, never
propagates an exception — on every failure mode: an exception in the search
request (network failure, timeout, HTTP error status), a missing result
container, a missing link, an empty `href`, an exception in the follow-up
request, or a missing heading; and every successfully returned record has
its `conteudo` truncated to at most 5000 characters. -/
theorem claim_C4_buscar (p : PortalEnv) (lei_id : List Char) :
    (p.search lei_id = .error () → buscar_conteudo_lei p lei_id = none)
    ∧ (p.search lei_id = .ok none → buscar_conteudo_lei p lei_id = none)
    ∧ (∀ item, p.search lei_id = .ok (some item) → item.link = none →
        buscar_conteudo_lei p lei_id = none)
    ∧ (∀ item lk, p.search lei_id = .ok (some item) → item.link = some lk →
        lk.href = [] → buscar_conteudo_lei p lei_id = none)
    ∧ (∀ item lk, p.search lei_id = .ok (some item) → item.link = some lk →
        p.fetchPage lk.href = .error () → buscar_conteudo_lei p lei_id = none)
    ∧ (∀ item lk st body, p.search lei_id = .ok (some item) →
        item.link = some lk → p.fetchPage lk.href = .ok (st, body) →
        item.h3 = none → buscar_conteudo_lei p lei_id = none)
    ∧ (∀ r, buscar_conteudo_lei p lei_id = some r → r.conteudo.length ≤ 5000) := by
  refine ⟨?_, ?_, ?_, ?_, ?_, ?_, ?_⟩
  · intro h; simp [buscar_conteudo_lei, h]
  · intro h; simp [buscar_conteudo_lei, h]
  · intro item h1 h2; simp [buscar_conteudo_lei, h1, h2]
  · intro item lk h1 h2 h3; simp [buscar_conteudo_lei, h1, h2, h3]
  · intro item lk h1 h2 h3
    by_cases h0 : lk.href = []
    · simp [buscar_conteudo_lei, h1, h2, h0]
    · simp [buscar_conteudo_lei, h1, h2, h0, h3]
  · intro item lk st body h1 h2 h3 h4
    by_cases h0 : lk.href = []
    · simp [buscar_conteudo_lei, h1, h2, h0]
    · simp [buscar_conteudo_lei, h1, h2, h0, h3, h4]
  · intro r h
    unfold buscar_conteudo_lei at h
    rcases hs : p.search lei_id with e | res
    · simp [hs] at h
    · rcases res with _ | item
      · simp [hs] at h
      · rcases hl : item.link with _ | lk
        · simp [hs, hl] at h
        · by_cases h0 : lk.href = []
          · simp [hs, hl, h0] at h
          · rcases hf : p.fetchPage lk.href with e | stb
            · simp [hs, hl, h0, hf] at h
            · rcases hh : item.h3 with _ | ttl
              · simp [hs, hl, h0, hf, hh] at h
              · simp [hs, hl, h0, hf, hh] at h
                subst h
                simp [List.length_take_le 5000 (p.getText stb.2)]

/-- Concrete environments for the portal-client witnesses: one in which the
search request raises, and one in which everything is present. -/
def portalFalha : PortalEnv :=
  { search := fun _ => .error ()
    fetchPage := fun _ => .error ()
    getText := fun x => x }

def portalOk : PortalEnv :=
  { search := fun _ =>
      .ok (some { link := some { href := "u".toList }, h3 := some ("T".toList) })
    fetchPage := fun _ => .ok (500, "B".toList)
    getText := fun x => x }

/-- Witness for C4: a raising search request yields `none`, and the record
returned by a fully successful lookup has `conteudo` of length at most
5000, both via `claim_C4_buscar`. -/
theorem claim_C4_buscar_witness :
    buscar_conteudo_lei portalFalha cdcTok = none
    ∧ ({ lei := cdcTok, titulo := "T".toList, link := "u".toList,
         conteudo := "B".toList } : ConteudoLei).conteudo.length ≤ 5000 := by
  constructor
  · exact (claim_C4_buscar portalFalha cdcTok).1 rfl
  · exact (claim_C4_buscar portalOk cdcTok).2.2.2.2.2.2 _ (by decide)

/-! ## Claim C10 -/

/-- Claim C10: the HTTP status of the follow-up request is never checked —
whenever the search succeeds with a result carrying a link with non-empty
`href` and a heading, and the follow-up request returns **any** response
(any status code `st`, including error statuses), `buscar_conteudo_lei`
returns a present record whose `conteudo` is the extracted text of that
response body (truncated to 5000 characters), not `none`. -/
theorem claim_C10_status_ignorado (p : PortalEnv) (lei_id : List Char)
    (item : ItemDiv) (lk : LinkT) (ttl : List Char) (st : Nat) (body : List Char)
    (h1 : p.search lei_id = .ok (some item)) (h2 : item.link = some lk)
    (h3 : lk.href ≠ []) (h4 : item.h3 = some ttl)
    (h5 : p.fetchPage lk.href = .ok (st, body)) :
    buscar_conteudo_lei p lei_id =
      some { lei := lei_id, titulo := ttl, link := lk.href
             conteudo := (p.getText body).take 5000 } := by
  simp [buscar_conteudo_lei, h1, h2, h3, h4, h5]

/-- Witness for C10: with `portalOk`, whose follow-up request returns HTTP
status 500, the fetch still succeeds and returns the page text. -/
theorem claim_C10_status_ignorado_witness :
    buscar_conteudo_lei portalOk cdcTok =
      some { lei := cdcTok, titulo := "T".toList, link := "u".toList
             conteudo := "B".toList } := by
  exact claim_C10_status_ignorado portalOk cdcTok _ _ _ 500 ("B".toList)
    rfl rfl (by decide) rfl rfl

/-! ## Claim C2 -/

/-- Claim C2 (amended): for every behaviour of the collaborators,
`analisar_discrepancias` returns either the empty array (when the model call
raises, the response fails to parse, or the parsed value has no usable
`'discrepancias'` entry) or **exactly the value stored under the
`'discrepancias'` key of the parsed response, unvalidated** — so, contrary
to the claim as stated, the result is not always an array: a parseable
response may put `null` (or any JSON value) under the key and it is passed
through. -/
theorem claim_C2_discrepancias (env : ModeloEnv) (texto : List Char)
    (citacoes : List Citacao) :
    analisar_discrepancias env texto citacoes = Json.arr []
    ∨ ∃ s j v,
        env.invokeA texto citacoes (conteudoLeis env.portal citacoes) = .ok s
        ∧ env.loads (cleanResp s) = some j
        ∧ jsonGet j discKey = some v
        ∧ analisar_discrepancias env texto citacoes = v := by
  rcases h1 : env.invokeA texto citacoes (conteudoLeis env.portal citacoes)
    with e | content
  · exact Or.inl (by simp [analisar_discrepancias, h1])
  · rcases h2 : env.loads (cleanResp content) with _ | j
    · exact Or.inl (by simp [analisar_discrepancias, h1, h2])
    · rcases h3 : jsonGet j discKey with _ | v
      · exact Or.inl (by simp [analisar_discrepancias, h1, h2, h3])
      · exact Or.inr ⟨content, j, v, rfl, h2, h3,
          by simp [analisar_discrepancias, h1, h2, h3]⟩

/-- The concrete model response `{"discrepancias": null}` and an oracle
environment in which the model returns it and `json.loads` parses it. -/
def respNull : List Char := "\x7b\"discrepancias\": null\x7d".toList

def envNull : ModeloEnv :=
  { portal := portalFalha
    invokeA := fun _ _ _ => .ok respNull
    loads := fun s => if s = respNull then some (Json.obj [(discKey, Json.null)]) else none
    invokeS := fun _ => .error () }

/-- Counterexample for C2 as stated: when the model answers
`{"discrepancias": null}`, the returned `discrepancias` value is `null`,
not an array. -/
theorem claim_C2_cex :
    (analisar_discrepancias envNull [] []).isArr = false := by
  decide

/-! ## Claim C3 -/

/-- Claim C3: `analisar_discrepancias` returns the empty list — and, being
total, never propagates an exception — whenever the model call raises,
or the cleaned response is not valid JSON, or the parsed JSON has no
`'discrepancias'` entry (missing key, or a non-object result). -/
theorem claim_C3_fallback (env : ModeloEnv) (texto : List Char)
    (citacoes : List Citacao) :
    (env.invokeA texto citacoes (conteudoLeis env.portal citacoes) = .error () →
      analisar_discrepancias env texto citacoes = Json.arr [])
    ∧ (∀ s, env.invokeA texto citacoes (conteudoLeis env.portal citacoes) = .ok s →
        env.loads (cleanResp s) = none →
        analisar_discrepancias env texto citacoes = Json.arr [])
    ∧ (∀ s j, env.invokeA texto citacoes (conteudoLeis env.portal citacoes) = .ok s →
        env.loads (cleanResp s) = some j → jsonGet j discKey = none →
        analisar_discrepancias env texto citacoes = Json.arr []) := by
  refine ⟨?_, ?_, ?_⟩
  · intro h; simp [analisar_discrepancias, h]
  · intro s h1 h2; simp [analisar_discrepancias, h1, h2]
  · intro s j h1 h2 h3; simp [analisar_discrepancias, h1, h2, h3]

/-- Oracle environments for the three failure modes of C3: a raising model
call; a response that is not valid JSON; a valid JSON response without a
`'discrepancias'` key. -/
def envRaise : ModeloEnv :=
  { portal := portalFalha
    invokeA := fun _ _ _ => .error ()
    loads := fun _ => none
    invokeS := fun _ => .error () }

def envBadJson : ModeloEnv :=
  { portal := portalFalha
    invokeA := fun _ _ _ => .ok ("not json".toList)
    loads := fun _ => none
    invokeS := fun _ => .error () }

def envNoKey : ModeloEnv :=
  { portal := portalFalha
    invokeA := fun _ _ _ => .ok ("[]".toList)
    loads := fun s => if s = "[]".toList then some (Json.arr []) else none
    invokeS := fun _ => .error () }

/-- Witness for C3: the three failure modes evaluated at concrete
environments, via `claim_C3_fallback`. -/
theorem claim_C3_fallback_witness :
    analisar_discrepancias envRaise [] [] = Json.arr []
    ∧ analisar_discrepancias envBadJson [] [] = Json.arr []
    ∧ analisar_discrepancias envNoKey [] [] = Json.arr [] := by
  refine ⟨?_, ?_, ?_⟩
  · exact (claim_C3_fallback envRaise [] []).1 rfl
  · exact (claim_C3_fallback envBadJson [] []).2.1 ("not json".toList) rfl rfl
  · exact (claim_C3_fallback envNoKey [] []).2.2 ("[]".toList) (Json.arr [])
      rfl rfl rfl

/-! ## Claim C7 -/

theorem leisStep_inv (p : PortalEnv)
    (acc : List (List Char × LeiEncontrada) × List (List Char)) (cit : Citacao)
    (h1 : acc.2.Nodup) (h2 : (acc.1.map Prod.fst).Sublist acc.2) :
    (leisStep p acc cit).2.Nodup
    ∧ ((leisStep p acc cit).1.map Prod.fst).Sublist (leisStep p acc cit).2
    ∧ (leisStep p acc cit).2.length ≤ acc.2.length + 1 := by
  unfold leisStep
  by_cases hl : lawLikeB cit.texto
  · simp only [hl, if_true]
    by_cases hm : orchId cit.texto ∈ acc.2
    · simp only [hm, if_true]
      exact ⟨h1, h2, Nat.le_succ_of_le (Nat.le_refl _)⟩
    · simp only [hm, if_false]
      have hnodup : (acc.2 ++ [orchId cit.texto]).Nodup := by
        rw [List.nodup_append]
        exact ⟨h1, List.nodup_singleton _, by simpa using hm⟩
      rcases hb : buscar_conteudo_lei p (orchId cit.texto) with _ | c
      · exact ⟨hnodup, h2.trans (List.sublist_append_left _ _), by simp⟩
      · refine ⟨hnodup, ?_, by simp⟩
        rw [List.map_append]
        exact h2.append (List.Sublist.refl _)
  · simp only [hl, if_false]
    exact ⟨h1, h2, Nat.le_succ_of_le (Nat.le_refl _)⟩

theorem leisLoop_inv (p : PortalEnv) :
    ∀ (cits : List Citacao) (acc : List (List Char × LeiEncontrada) × List (List Char)),
    acc.2.Nodup → (acc.1.map Prod.fst).Sublist acc.2 →
    (leisLoop p cits acc).2.Nodup
    ∧ ((leisLoop p cits acc).1.map Prod.fst).Sublist (leisLoop p cits acc).2
    ∧ (leisLoop p cits acc).2.length ≤ acc.2.length + cits.length := by
  intro cits
  induction cits with
  | nil => intro acc h1 h2; exact ⟨h1, h2, by simp [leisLoop]⟩
  | cons cit rest ih =>
    intro acc h1 h2
    obtain ⟨s1, s2, s3⟩ := leisStep_inv p acc cit h1 h2
    obtain ⟨t1, t2, t3⟩ := ih (leisStep p acc cit) s1 s2
    refine ⟨t1, t2, ?_⟩
    calc (leisLoop p (cit :: rest) acc).2.length
        = (leisLoop p rest (leisStep p acc cit)).2.length := by rfl
      _ ≤ (leisStep p acc cit).2.length + rest.length := t3
      _ ≤ acc.2.length + 1 + rest.length := Nat.add_le_add_right s3 _
      _ = acc.2.length + (cit :: rest).length := by simp; omega

/-- Claim C7: in every successfully returned result, the found-laws entries
arise from pairwise-distinct canonical law ids (the loop's `lei_busca`
values, recorded as the first components of `leisLoop`'s accumulator), and
`leisEncontradas` is the projection of those pairs, with
`leisEncontradas.length ≤ citacoesEncontradas`, where `citacoesEncontradas`
is the raw pre-deduplication citation count. -/
theorem claim_C7_dedup (env : ModeloEnv) (texto : List Char) (res : Resultado)
    (h : processar_documento_completo env texto = .ok res) :
    (((leisLoop env.portal (extrair_citacoes_legais texto) ([], [])).1.map
        Prod.fst).Nodup)
    ∧ res.leisEncontradas =
        ((leisLoop env.portal (extrair_citacoes_legais texto) ([], [])).1.map (·.2))
    ∧ res.citacoesEncontradas = (extrair_citacoes_legais texto).length
    ∧ res.leisEncontradas.length ≤ res.citacoesEncontradas := by
  obtain ⟨i1, i2, i3⟩ :=
    leisLoop_inv env.portal (extrair_citacoes_legais texto) ([], [])
      (List.nodup_nil) (by simp)
  have hlen :
      (leisLoop env.portal (extrair_citacoes_legais texto) ([], [])).1.length
        ≤ (extrair_citacoes_legais texto).length := by
    have := i2.length_le
    simp only [List.length_map] at this
    have h3 := i3
    simp only [List.length_nil, Nat.zero_add] at h3
    omega
  have hres : res =
      { textoSimplificado := res.textoSimplificado
        discrepancias := analisar_discrepancias env texto (extrair_citacoes_legais texto)
        leisEncontradas :=
          ((leisLoop env.portal (extrair_citacoes_legais texto) ([], [])).1.map (·.2))
        citacoesEncontradas := (extrair_citacoes_legais texto).length } := by
    unfold processar_documento_completo at h
    rcases hs : simplificar_texto env texto with e | ts
    · rw [hs] at h; exact absurd h (by simp)
    · rw [hs] at h
      simp only [Except.ok.injEq] at h
      rw [← h]
  refine ⟨(i1.sublist i2 : _), ?_, ?_, ?_⟩
  · rw [hres]
  · rw [hres]
  · rw [hres]
    simp only [List.length_map]
    exact hlen

/-- A concrete environment and document for the C7 witness: the model raises
on analysis, the simplifier answers `'x'`, and the portal resolves every law
to the same page. -/
def env7 : ModeloEnv :=
  { portal := portalOk
    invokeA := fun _ _ _ => .error ()
    loads := fun _ => none
    invokeS := fun _ => .ok ("x".toList) }

def texto7 : List Char := "CDC CDC".toList

def res7 : Resultado :=
  { textoSimplificado := "x".toList
    discrepancias := Json.arr []
    leisEncontradas := [{ nome := "T".toList, link := "u".toList, status := "Vigente" }]
    citacoesEncontradas := 2 }

/-- Witness for C7: a document citing `CDC` twice yields one found-laws
entry from a duplicate-free id list, and `1 ≤ 2`, via `claim_C7_dedup`. -/
theorem claim_C7_dedup_witness :
    (((leisLoop env7.portal (extrair_citacoes_legais texto7) ([], [])).1.map
        Prod.fst).Nodup)
    ∧ res7.leisEncontradas =
        ((leisLoop env7.portal (extrair_citacoes_legais texto7) ([], [])).1.map (·.2))
    ∧ res7.citacoesEncontradas = (extrair_citacoes_legais texto7).length
    ∧ res7.leisEncontradas.length ≤ res7.citacoesEncontradas :=
  claim_C7_dedup env7 texto7 res7 rfl

/-! ## Claim C8 -/

/-- Claim C8 (amended): for a document in which no extraction pattern
matches, every successfully returned result has `citacoesEncontradas = 0`
and `leisEncontradas = []` for **every** behaviour of the collaborators;
but — contrary to the claim as stated — the remaining fields depend on the
model collaborators: `discrepancias` is whatever `analisar_discrepancias`
produces for the empty citation list (the model is still invoked, so it is
the empty array only in the fallback cases of C2/C3), and
`textoSimplificado` is the simplifier model's stripped response, which may
be empty. -/
theorem claim_C8_vazio (env : ModeloEnv) (texto : List Char) (res : Resultado)
    (h0 : extrair_citacoes_legais texto = [])
    (h : processar_documento_completo env texto = .ok res) :
    res.citacoesEncontradas = 0
    ∧ res.leisEncontradas = []
    ∧ res.discrepancias = analisar_discrepancias env texto []
    ∧ ∃ s, env.invokeS texto = .ok s ∧ res.textoSimplificado = pyStripL s := by
  unfold processar_documento_completo at h
  rw [h0] at h
  rcases hs : simplificar_texto env texto with e | ts
  · rw [hs] at h; exact absurd h (by simp)
  · rw [hs] at h
    simp only [Except.ok.injEq] at h
    subst h
    unfold simplificar_texto at hs
    rcases hi : env.invokeS texto with e | content
    · rw [hi] at hs; exact absurd hs (by simp)
    · rw [hi] at hs
      simp only [Except.ok.injEq] at hs
      exact ⟨rfl, by simp [leisLoop], rfl, content, rfl, hs.symm⟩

/-- A concrete environment in which the simplifier model answers the empty
string and the analysis model raises. -/
def env8 : ModeloEnv :=
  { portal := portalFalha
    invokeA := fun _ _ _ => .error ()
    loads := fun _ => none
    invokeS := fun _ => .ok [] }

/-- Environment for the C8 witness: like `env8` but the simplifier answers
`'x'`. -/
def env8w : ModeloEnv :=
  { portal := portalFalha
    invokeA := fun _ _ _ => .error ()
    loads := fun _ => none
    invokeS := fun _ => .ok ("x".toList) }

def olaTok : List Char := "ola".toList

def res8w : Resultado :=
  { textoSimplificado := "x".toList
    discrepancias := Json.arr []
    leisEncontradas := []
    citacoesEncontradas := 0 }

/-- Witness for C8: a pattern-free document processed in `env8w` yields zero
citations and no found laws, via `claim_C8_vazio`. -/
theorem claim_C8_vazio_witness :
    res8w.citacoesEncontradas = 0 ∧ res8w.leisEncontradas = [] := by
  have h := claim_C8_vazio env8w olaTok res8w (by decide) rfl
  exact ⟨h.1, h.2.1⟩

/-- Counterexample for C8 as stated: there is a collaborator behaviour (the
simplifier model returning the empty string) under which the pattern-free
document `'ola'` yields an **empty** `textoSimplificado`, so the result's
simplified text is not non-empty for every behaviour of the model. -/
theorem claim_C8_cex :
    (processar_documento_completo env8 olaTok).map (fun r => r.textoSimplificado)
      = .ok [] := by
  rfl

/-! ## Claim C9 -/

theorem litMatch_le : ∀ (cs l : List Nat), litMatch cs l = true → cs.length ≤ l.length := by
  intro cs
  induction cs with
  | nil => intro l _; simp
  | cons a as ih =>
    intro l h
    cases l with
    | nil => simp [litMatch] at h
    | cons b bs =>
      simp only [litMatch, Bool.and_eq_true] at h
      simpa using ih bs h.2

theorem countLead_le (p : Nat → Bool) : ∀ l : List Nat, countLead p l ≤ l.length := by
  intro l
  induction l with
  | nil => simp [countLead]
  | cons n rest ih =>
    simp only [countLead, List.length_cons]
    split
    · omega
    · omega

theorem mem_descRange (k m : Nat) (h : k ∈ descRange m) : k ≤ m := by
  simp only [descRange, List.mem_reverse, List.mem_range] at h
  omega

theorem mem_descRangeOne (k m : Nat) (h : k ∈ descRangeOne m) : k ≤ m := by
  simp only [descRangeOne, List.mem_reverse, List.mem_map, List.mem_range] at h
  omega

theorem matchLens_le (re : RE) : ∀ (l : List Nat) (k : Nat),
    k ∈ matchLens re l → k ≤ l.length := by
  induction re with
  | lit cs =>
    intro l k h
    simp only [matchLens] at h
    split at h
    · simp only [List.mem_singleton] at h
      subst h
      exact litMatch_le cs l (by assumption)
    · simp at h
  | cls t =>
    intro l k h
    cases l with
    | nil => simp [matchLens] at h
    | cons n rest =>
      simp only [matchLens] at h
      split at h
      · simp only [List.mem_singleton] at h; subst h; simp
      · simp at h
  | seq a b iha ihb =>
    intro l k h
    simp only [matchLens, List.mem_flatMap, List.mem_map] at h
    obtain ⟨ka, hka, kb, hkb, hsum⟩ := h
    have h1 := iha l ka hka
    have h2 := ihb (l.drop ka) kb hkb
    rw [List.length_drop] at h2
    omega
  | alt a b iha ihb =>
    intro l k h
    rcases List.mem_append.mp h with h | h
    · exact iha l k h
    · exact ihb l k h
  | opt a ih =>
    intro l k h
    rcases List.mem_append.mp h with h | h
    · exact ih l k h
    · simp only [List.mem_singleton] at h; subst h; exact Nat.zero_le _
  | starCls t =>
    intro l k h
    exact (mem_descRange _ _ h).trans (countLead_le _ l)
  | plusCls t =>
    intro l k h
    exact (mem_descRangeOne _ _ h).trans (countLead_le _ l)

theorem firstLen_le (re : RE) (l : List Nat) (k : Nat)
    (h : firstLen re l = some k) : k ≤ l.length := by
  unfold firstLen at h
  rcases ml : matchLens re l with _ | ⟨x, xs⟩
  · rw [ml] at h; simp at h
  · rw [ml] at h
    simp only [List.head?_cons, Option.some.injEq] at h
    subst h
    exact matchLens_le re l x (ml ▸ List.mem_cons_self x xs)

/-- Span specification of the `finditer` scan: every emitted match starts at
or after the scan position, ends within the text, and its recorded characters
are exactly the slice of the scanned suffix at its span. -/
theorem scanSkip_spec (re : RE) : ∀ (l : List Char) (pos sk s : Nat) (m : List Char),
    (s, m) ∈ scanSkip re l pos sk →
    pos ≤ s ∧ s + m.length ≤ pos + l.length
      ∧ m = (l.drop (s - pos)).take m.length := by
  intro l
  induction l with
  | nil => intro pos sk s m h; simp [scanSkip] at h
  | cons c rest ih =>
    intro pos sk s m h
    have step : ∀ sk2, (s, m) ∈ scanSkip re rest (pos + 1) sk2 →
        pos ≤ s ∧ s + m.length ≤ pos + (c :: rest).length
          ∧ m = ((c :: rest).drop (s - pos)).take m.length := by
      intro sk2 hmem
      obtain ⟨h1, h2, h3⟩ := ih (pos + 1) sk2 s m hmem
      refine ⟨by omega, by simp only [List.length_cons]; omega, ?_⟩
      have hsp : s - pos = (s - (pos + 1)) + 1 := by omega
      rw [hsp, List.drop_succ_cons]
      exact h3
    cases sk with
    | succ skn =>
      simp only [scanSkip] at h
      exact step skn h
    | zero =>
      rcases hf : firstLen re ((c :: rest).map Char.toNat) with _ | k
      · simp only [scanSkip, hf] at h
        exact step 0 h
      · cases k with
        | zero =>
          simp only [scanSkip, hf, List.mem_cons] at h
          rcases h with h | h
          · obtain ⟨rfl, rfl⟩ := Prod.mk.injEq .. ▸ h
            exact ⟨Nat.le_refl _, by simp, by simp⟩
          · exact step 0 h
        | succ kk =>
          simp only [scanSkip, hf, List.mem_cons] at h
          rcases h with h | h
          · obtain ⟨rfl, rfl⟩ := Prod.mk.injEq .. ▸ h
            have hk : kk + 1 ≤ (c :: rest).length := by
              have hb := firstLen_le re _ _ hf
              simpa using hb
            have hlen : ((c :: rest).take (kk + 1)).length = kk + 1 := by
              rw [List.length_take]
              simp only [List.length_cons] at hk ⊢
              omega
            refine ⟨Nat.le_refl _, ?_, ?_⟩
            · rw [hlen]
              simp only [List.length_cons] at hk ⊢
              omega
            · rw [Nat.sub_self, List.drop_zero, hlen]
          · exact step kk h

theorem citacoesDos_mem : ∀ (ps : List RE) (texto : List Char) (c : Citacao),
    c ∈ citacoesDos ps texto →
    ∃ re r, r ∈ matchesDe re texto ∧ c = mkCitacao r := by
  intro ps
  induction ps with
  | nil => intro texto c h; simp [citacoesDos] at h
  | cons p rest ih =>
    intro texto c h
    simp only [citacoesDos, List.mem_append] at h
    rcases h with h | h
    · obtain ⟨r, hr, rfl⟩ := List.mem_map.mp h
      exact ⟨p, r, hr, rfl⟩
    · exact ih texto c h

/-- Claim C9: every citation produced by `extrair_citacoes_legais` has a
well-formed span inside the input (`start ≤ end ≤ length`) and stores as
`texto` exactly the slice of the input text between `start` and `end`. -/
theorem claim_C9_spans (texto : List Char) (c : Citacao)
    (h : c ∈ extrair_citacoes_legais texto) :
    c.posicao.1 ≤ c.posicao.2 ∧ c.posicao.2 ≤ texto.length
      ∧ c.texto = (texto.drop c.posicao.1).take (c.posicao.2 - c.posicao.1) := by
  obtain ⟨re, r, hr, rfl⟩ := citacoesDos_mem padroes texto c h
  obtain ⟨h1, h2, h3⟩ := scanSkip_spec re texto 0 0 r.1 r.2 hr
  simp only [mkCitacao]
  refine ⟨Nat.le_add_right _ _, by simpa using h2, ?_⟩
  have hd : r.1 + r.2.length - r.1 = r.2.length := by omega
  rw [hd]
  simpa using h3

/-- Witness for C9: the single citation extracted from the document `'CDC'`
has span `(0, 3)`, within bounds, and stores the matched slice, via
`claim_C9_spans`. -/
theorem claim_C9_spans_witness :
    (⟨"CDC".toList, (0, 3), "artigo"⟩ : Citacao).posicao.1
        ≤ (⟨"CDC".toList, (0, 3), "artigo"⟩ : Citacao).posicao.2
    ∧ (⟨"CDC".toList, (0, 3), "artigo"⟩ : Citacao).posicao.2 ≤ ("CDC".toList).length
    ∧ (⟨"CDC".toList, (0, 3), "artigo"⟩ : Citacao).texto =
        (("CDC".toList).drop 0).take (3 - 0) :=
  claim_C9_spans ("CDC".toList) ⟨"CDC".toList, (0, 3), "artigo"⟩ (by decide)

/-! ## Claim C6

Case-insensitivity is expressed as an invariance: two texts equal up to case
folding (`lowerN` applied pointwise to their code points) produce citation
lists with identical spans — the matcher cannot distinguish letter case. -/

theorem clsFun_lower_inv (t : CharCls) (a b : Nat) (h : lowerN a = lowerN b) :
    clsFun t a = clsFun t b := by
  unfold lowerN at h
  cases t <;>
    simp only [clsFun, isDigitN, isSpaceN, isOrdN, decide_eq_decide] <;>
    (split at h <;> split at h <;> omega)

theorem litMatch_inv (cs : List Nat) : ∀ l₁ l₂ : List Nat,
    l₁.map lowerN = l₂.map lowerN → litMatch cs l₁ = litMatch cs l₂ := by
  induction cs with
  | nil => intro l₁ l₂ _; rfl
  | cons a as ih =>
    intro l₁ l₂ h
    cases l₁ with
    | nil =>
      cases l₂ with
      | nil => rfl
      | cons b₂ bs₂ => simp at h
    | cons b₁ bs₁ =>
      cases l₂ with
      | nil => simp at h
      | cons b₂ bs₂ =>
        simp only [List.map_cons, List.cons.injEq] at h
        simp only [litMatch, h.1, ih bs₁ bs₂ h.2]

theorem countLead_inv (p : Nat → Bool)
    (hp : ∀ a b, lowerN a = lowerN b → p a = p b) :
    ∀ l₁ l₂ : List Nat, l₁.map lowerN = l₂.map lowerN →
    countLead p l₁ = countLead p l₂ := by
  intro l₁
  induction l₁ with
  | nil =>
    intro l₂ h
    cases l₂ with
    | nil => rfl
    | cons b bs => simp at h
  | cons a as ih =>
    intro l₂ h
    cases l₂ with
    | nil => simp at h
    | cons b bs =>
      simp only [List.map_cons, List.cons.injEq] at h
      simp only [countLead, hp a b h.1, ih bs h.2]

theorem map_lower_drop (k : Nat) (l₁ l₂ : List Nat)
    (h : l₁.map lowerN = l₂.map lowerN) :
    (l₁.drop k).map lowerN = (l₂.drop k).map lowerN := by
  rw [List.map_drop, List.map_drop, h]

theorem matchLens_inv (re : RE) : ∀ l₁ l₂ : List Nat,
    l₁.map lowerN = l₂.map lowerN → matchLens re l₁ = matchLens re l₂ := by
  induction re with
  | lit cs =>
    intro l₁ l₂ h
    simp only [matchLens, litMatch_inv cs l₁ l₂ h]
  | cls t =>
    intro l₁ l₂ h
    cases l₁ with
    | nil =>
      cases l₂ with
      | nil => rfl
      | cons b bs => simp at h
    | cons a as =>
      cases l₂ with
      | nil => simp at h
      | cons b bs =>
        simp only [List.map_cons, List.cons.injEq] at h
        simp only [matchLens, clsFun_lower_inv t a b h.1]
  | seq a b iha ihb =>
    intro l₁ l₂ h
    simp only [matchLens, iha l₁ l₂ h]
    congr 1
    funext ka
    rw [ihb (l₁.drop ka) (l₂.drop ka) (map_lower_drop ka l₁ l₂ h)]
  | alt a b iha ihb =>
    intro l₁ l₂ h
    simp only [matchLens, iha l₁ l₂ h, ihb l₁ l₂ h]
  | opt a ih =>
    intro l₁ l₂ h
    simp only [matchLens, ih l₁ l₂ h]
  | starCls t =>
    intro l₁ l₂ h
    simp only [matchLens, countLead_inv (clsFun t) (clsFun_lower_inv t) l₁ l₂ h]
  | plusCls t =>
    intro l₁ l₂ h
    simp only [matchLens, countLead_inv (clsFun t) (clsFun_lower_inv t) l₁ l₂ h]

/-- The case-fold projection of a text's code points. -/
def foldPts (l : List Char) : List Nat := l.map (fun c => lowerN c.toNat)

/-- The span recorded for one match. -/
def spanOf (r : Nat × List Char) : Nat × Nat := (r.1, r.1 + r.2.length)

theorem firstLen_inv (re : RE) (l₁ l₂ : List Char) (h : foldPts l₁ = foldPts l₂) :
    firstLen re (l₁.map Char.toNat) = firstLen re (l₂.map Char.toNat) := by
  unfold firstLen
  rw [matchLens_inv re (l₁.map Char.toNat) (l₂.map Char.toNat)]
  simp only [List.map_map]
  exact h

theorem scanSkip_spans_inv (re : RE) : ∀ (l₁ l₂ : List Char) (pos sk : Nat),
    foldPts l₁ = foldPts l₂ →
    (scanSkip re l₁ pos sk).map spanOf = (scanSkip re l₂ pos sk).map spanOf := by
  intro l₁
  induction l₁ with
  | nil =>
    intro l₂ pos sk h
    cases l₂ with
    | nil => rfl
    | cons b bs => simp [foldPts] at h
  | cons c₁ r₁ ih =>
    intro l₂ pos sk h
    cases l₂ with
    | nil => simp [foldPts] at h
    | cons c₂ r₂ =>
      have hh : foldPts r₁ = foldPts r₂ := by
        simp only [foldPts, List.map_cons, List.cons.injEq] at h
        exact h.2
      have hlen : r₁.length = r₂.length := by
        have := congrArg List.length hh
        simpa [foldPts] using this
      have hfeq : firstLen re ((c₁ :: r₁).map Char.toNat)
          = firstLen re ((c₂ :: r₂).map Char.toNat) :=
        firstLen_inv re (c₁ :: r₁) (c₂ :: r₂) h
      cases sk with
      | succ skn =>
        simp only [scanSkip]
        exact ih r₂ (pos + 1) skn hh
      | zero =>
        simp only [List.map_cons] at hfeq
        rcases hf2 : firstLen re (c₁.toNat :: r₁.map Char.toNat) with _ | k
        · have hf3 := hfeq.symm.trans hf2
          simp only [scanSkip, List.map_cons, hf2, hf3]
          exact ih r₂ (pos + 1) 0 hh
        · cases k with
          | zero =>
            have hf3 := hfeq.symm.trans hf2
            simp only [scanSkip, List.map_cons, hf2, hf3]
            rw [ih r₂ (pos + 1) 0 hh]
          | succ kk =>
            have hf3 := hfeq.symm.trans hf2
            simp only [scanSkip, List.map_cons, hf2, hf3]
            rw [ih r₂ (pos + 1) kk hh]
            congr 1
            simp only [spanOf, List.length_take, List.length_cons, hlen]

theorem mkCitacao_posicao (r : Nat × List Char) : (mkCitacao r).posicao = spanOf r := rfl

theorem citacoesDos_spans_inv : ∀ (ps : List RE) (t₁ t₂ : List Char),
    foldPts t₁ = foldPts t₂ →
    (citacoesDos ps t₁).map (·.posicao) = (citacoesDos ps t₂).map (·.posicao) := by
  intro ps
  induction ps with
  | nil => intro t₁ t₂ _; rfl
  | cons p rest ih =>
    intro t₁ t₂ h
    simp only [citacoesDos, List.map_append, List.map_map]
    rw [ih t₁ t₂ h]
    congr 1
    have e₁ : ((·.posicao) ∘ mkCitacao : Nat × List Char → Nat × Nat) = spanOf := by
      funext r; rfl
    rw [e₁]
    exact scanSkip_spans_inv p t₁ t₂ 0 0 h

/-- Claim C6: (1) pattern matching in `extrair_citacoes_legais` is
case-insensitive — any two input texts equal up to case folding yield
citation lists with identical spans (in particular the same number of
matches at the same places); and (2) every produced citation has kind
`'lei'` exactly when its matched text contains the (case-sensitive) word
`'Lei'`, and kind `'artigo'` otherwise — also for matches captured in a
letter case other than the pattern's. -/
theorem claim_C6_maiusculas :
    (∀ t₁ t₂ : List Char, foldPts t₁ = foldPts t₂ →
      (extrair_citacoes_legais t₁).map (·.posicao)
        = (extrair_citacoes_legais t₂).map (·.posicao))
    ∧ (∀ (texto : List Char) (c : Citacao), c ∈ extrair_citacoes_legais texto →
      (c.tipo = "lei" ↔ containsSeq leiTok c.texto = true)) := by
  constructor
  · intro t₁ t₂ h
    exact citacoesDos_spans_inv padroes t₁ t₂ h
  · intro texto c h
    obtain ⟨re, r, _, rfl⟩ := citacoesDos_mem padroes texto c h
    simp only [mkCitacao]
    by_cases hl : containsSeq leiTok r.2 = true
    · simp [hl]
    · simp only [hl, if_false]
      constructor
      · intro hc; exact absurd hc (by decide)
      · intro hc; simp at hc

/-- Witness for C6: the texts `'Lei 8.078/90'` and `'lei 8.078/90'` differ
only in case and produce matches with identical spans; the lowercase match
stores text not containing `'Lei'` and is kinded `'artigo'` — both via
`claim_C6_maiusculas`. -/
theorem claim_C6_maiusculas_witness :
    ((extrair_citacoes_legais ("Lei 8.078/90".toList)).map (·.posicao)
      = (extrair_citacoes_legais ("lei 8.078/90".toList)).map (·.posicao))
    ∧ ((⟨"lei 8.078/90".toList, (0, 12), "artigo"⟩ : Citacao).tipo = "lei"
        ↔ containsSeq leiTok ("lei 8.078/90".toList) = true) := by
  obtain ⟨h1, h2⟩ := claim_C6_maiusculas
  exact ⟨h1 ("Lei 8.078/90".toList) ("lei 8.078/90".toList) (by decide),
    h2 ("lei 8.078/90".toList) ⟨"lei 8.078/90".toList, (0, 12), "artigo"⟩ (by decide)⟩
